import Mathlib

/-!
Verification of the Webscraper repository's container-detection and
field-extraction core against its specification.

The HTML document model, the candidate ranker `auto_detect_containers`
(src/app.py), the custom-scrape extraction loop (src/app.py), and the
fixed-profile quote extractor `scrape_quotes` (src/scraper.py) are embedded
shallowly below; the theorems at the end of the file settle the spec claims.
-/

set_option autoImplicit false

namespace Webscraper

mutual

/-- A parsed HTML node: either a text node or an element with a tag name,
a class list (the tokens of its class attribute, in order, duplicates
allowed; an absent attribute is the empty list) and child nodes.
Mutual with `NodeList` so that recursion over the tree is structural. -/
inductive Node where
  | text (s : String)
  | elem (tag : String) (classes : List String) (children : NodeList)

inductive NodeList where
  | nil
  | cons (n : Node) (ns : NodeList)

end

deriving instance DecidableEq for Node

/-- Build a `NodeList` from a `List Node`. -/
def NodeList.ofList : List Node → NodeList
  | [] => .nil
  | n :: ns => .cons n (NodeList.ofList ns)

mutual

/-- All elements of a subtree in document (pre-)order, the root element
included; a text node contributes nothing. -/
def elemsOf : Node → List Node
  | .text _ => []
  | .elem t cs ch => Node.elem t cs ch :: elemsOfL ch

def elemsOfL : NodeList → List Node
  | .nil => []
  | .cons n ns => elemsOf n ++ elemsOfL ns

end

/-- `element.find_all()`: every descendant element in document order,
the element itself excluded. -/
def descendantsOf : Node → List Node
  | .text _ => []
  | .elem _ _ ch => elemsOfL ch

mutual

/-- All text-node contents of a subtree in document order. -/
def stringsOf : Node → List String
  | .text s => [s]
  | .elem _ _ ch => stringsOfL ch

def stringsOfL : NodeList → List String
  | .nil => []
  | .cons n ns => stringsOf n ++ stringsOfL ns

end

/-- `element.find_all(string=True, recursive=True)`: the contents of every
descendant text node of an element, in document order. -/
def descStrings : Node → List String
  | .text _ => []
  | .elem _ _ ch => stringsOfL ch

/-- Join strings with a single space (for serializing a class attribute). -/
def joinSpace : List String → String
  | [] => ""
  | [s] => s
  | s :: rest => s ++ " " ++ joinSpace rest

/-- Serialized class attribute of an element, empty when there are no
classes. -/
def classAttr (cs : List String) : String :=
  if cs.isEmpty then "" else " class=\"" ++ joinSpace cs ++ "\""

mutual

/-- `str(element)`: serialize a subtree back to HTML text. -/
def render : Node → String
  | .text s => s
  | .elem t cs ch =>
      "<" ++ t ++ classAttr cs ++ ">" ++ renderL ch ++ "</" ++ t ++ ">"

def renderL : NodeList → String
  | .nil => ""
  | .cons n ns => render n ++ renderL ns

end

/-- Python's `s[:n]` on a string: the first `n` characters. -/
def strTake (s : String) (n : Nat) : String :=
  String.mk (s.data.take n)

/-- A parsed document: the sequence of root nodes of the page. -/
abbrev Doc := List Node

/-- Every element of the document in document order (what `soup.find_all`
and `soup.select` traverse). -/
def docElems (doc : Doc) : List Node :=
  elemsOfL (NodeList.ofList doc)

/-- The characters Python's `str.strip()` removes. -/
def pyWhitespace (c : Char) : Bool :=
  c == ' ' || c == '\t' || c == '\n' || c == '\r' || c == '\x0b' || c == '\x0c'

/-- Drop the elements satisfying `p` from both ends of a list. -/
def stripGen {α : Type} (p : α → Bool) (l : List α) : List α :=
  ((l.dropWhile p).reverse.dropWhile p).reverse

/-- Strip leading and trailing whitespace from a character list. -/
def stripChars (cs : List Char) : List Char :=
  stripGen pyWhitespace cs

/-- Python's `str.strip()`. -/
def pyStrip (s : String) : String :=
  String.mk (stripChars s.data)

/-- Does the node match a CSS selector of one of the three forms the code
uses: a bare tag (`article`), a bare class (`.entry`), or tag plus class
(`div.item`)?  The selector string is split at its first dot. -/
def matchesSel (sel : String) : Node → Bool
  | .text _ => false
  | .elem t cs _ =>
    match sel.data.dropWhile (fun c => c != '.') with
    | [] => t == String.mk (sel.data.takeWhile (fun c => c != '.'))
    | _ :: clsChars =>
        ((sel.data.takeWhile (fun c => c != '.')).isEmpty
            || t == String.mk (sel.data.takeWhile (fun c => c != '.')))
          && cs.contains (String.mk clsChars)

/-- `soup.select(sel)`: all matching elements in document order. -/
def select (doc : Doc) (sel : String) : List Node :=
  (docElems doc).filter (matchesSel sel)

/-- The class list of a node (empty for text nodes). -/
def nodeClasses : Node → List String
  | .text _ => []
  | .elem _ cs _ => cs

/-- Add one occurrence of class `k` to an insertion-ordered counter. -/
def bump (k : String) : List (String × Nat) → List (String × Nat)
  | [] => [(k, 1)]
  | p :: rest => if p.1 = k then (p.1, p.2 + 1) :: rest else p :: bump k rest

/-- `Counter` of class occurrences over the whole document: keys in
first-seen order, one count per occurrence of the class token in a class
attribute (an element carrying a class twice counts twice). -/
def classCounter (doc : Doc) : List (String × Nat) :=
  (docElems doc).foldl
    (fun acc n => (nodeClasses n).foldl (fun a c => bump c a) acc) []

/-- Insert an entry into a list sorted by descending count, after all
entries of count at least as large (so the sort is stable). -/
def insertDesc (x : String × Nat) : List (String × Nat) → List (String × Nat)
  | [] => [x]
  | y :: ys => if y.2 < x.2 then x :: y :: ys else y :: insertDesc x ys

/-- `Counter.most_common n`: entries sorted by descending count, ties kept
in first-seen order, truncated to `n`. -/
def mostCommon (n : Nat) (counter : List (String × Nat)) : List (String × Nat) :=
  (counter.foldl (fun acc x => insertDesc x acc) []).take n

/-- Decimal digit character. -/
def digitChar (n : Nat) : Char :=
  Char.ofNat (48 + n % 10)

/-- Decimal digits of `n`, fuelled so that the recursion is structural
(and hence kernel-reducible); the fuel `n + 1` always suffices. -/
def natDigits : Nat → Nat → List Char
  | 0, _ => []
  | fuel + 1, n =>
      if n < 10 then [digitChar n] else natDigits fuel (n / 10) ++ [digitChar n]

/-- Python's `str(n)` for a natural number. -/
def natToString (n : Nat) : String :=
  String.mk (natDigits (n + 1) n)

/-- Which of the two detection heuristics produced a candidate. -/
inductive Source where
  | FrequencyHeuristic
  | PatternHeuristic
deriving DecidableEq

/-- A container candidate as built by `auto_detect_containers`: the
dictionary keys `selector`, `count`, `sample`, plus the provenance tag
(determined by which of the two loops created the entry). -/
structure Candidate where
  selector : String
  count : Nat
  sample : String
  source : Source
deriving DecidableEq

/-- One step of the frequency loop of `auto_detect_containers`: given a
`(class, count)` entry of `most_common(20)`, keep it if the count is at
least 3 and the first element matching `.class` has more than 2 descendant
elements. -/
def freqCandidate (doc : Doc) (p : String × Nat) : Option Candidate :=
  if 3 ≤ p.2 then
    match select doc ("." ++ p.1) with
    | [] => none
    | e :: _ =>
        if 2 < (descendantsOf e).length then
          some ⟨"." ++ p.1, p.2, strTake (render e) 200, .FrequencyHeuristic⟩
        else none
  else none

/-- The frequency-heuristic candidates, in `most_common(20)` order. -/
def freqCandidates (doc : Doc) : List Candidate :=
  (mostCommon 20 (classCounter doc)).filterMap (freqCandidate doc)

/-- The fixed list of structural container patterns, in source order. -/
def commonPatterns : List String :=
  ["article", "div.item", "div.card", "div.product", "div.post", "li",
   ".listing", ".entry"]

/-- One step of the pattern loop: a pattern with at least 3 matches yields
a candidate whose count is the number of matched elements. -/
def patternCandidate (doc : Doc) (pat : String) : Option Candidate :=
  match select doc pat with
  | [] => none
  | e :: rest =>
      if 3 ≤ rest.length + 1 then
        some ⟨pat, rest.length + 1, strTake (render e) 200, .PatternHeuristic⟩
      else none

/-- One step of `candidates.insert(0, ...)`: cons the candidate a pattern
yields (if any) onto the front of the accumulated list. -/
def insertFrontStep {α β : Type} (f : α → Option β) (a : List β) (p : α) : List β :=
  match f p with
  | some c => c :: a
  | none => a

/-- The full candidate list before truncation: the frequency candidates,
each qualifying pattern candidate then inserted at position 0 (so patterns
end up in front, in reverse pattern-list order). -/
def allCandidates (doc : Doc) : List Candidate :=
  commonPatterns.foldl (insertFrontStep (patternCandidate doc)) (freqCandidates doc)

/-- `auto_detect_containers` (src/app.py lines 28-68) applied to an
already fetched and parsed document: the candidate list truncated to 5. -/
def auto_detect_containers (doc : Doc) : List Candidate :=
  (allCandidates doc).take 5

/-- `auto_detect_containers` including its `try/except` wrapper: the
fallible fetch-and-parse front end is an `Except` value, and any error is
caught and turned into the empty candidate list (src/app.py lines 23, 70-71). -/
def auto_detect_from_fetch (fetched : Except String Doc) : List Candidate :=
  match fetched with
  | .ok doc => auto_detect_containers doc
  | .error _ => []

/-- The container's text entries as the extraction loop sees them:
every descendant text node in document order, stripped, the
empty-after-strip ones removed (src/app.py lines 244-245). -/
def containerTexts (c : Node) : List String :=
  ((descStrings c).map pyStrip).filter (fun t => !t.isEmpty)

/-- The loop `for i, text in enumerate(...): if len(text) > 2:
item[f'field_i+1'] = text` — note the index advances on skipped entries
too, so the emitted keys can have gaps. -/
def extractFields : Nat → List String → List (String × String)
  | _, [] => []
  | i, t :: ts =>
      if 2 < t.length then
        ("field_" ++ natToString (i + 1), t) :: extractFields (i + 1) ts
      else extractFields (i + 1) ts

/-- The record built from one container: fields from the first 10
non-empty stripped texts (src/app.py lines 248-251), as an
insertion-ordered key-value list. -/
def extractItem (c : Node) : List (String × String) :=
  extractFields 0 ((containerTexts c).take 10)

/-- The custom-scrape extraction loop (src/app.py lines 234, 242-254):
select the containers, cap to `maxItems`, build a record per container and
keep only the non-empty records. -/
def extract (doc : Doc) (containerSelector : String) (maxItems : Nat) :
    List (List (String × String)) :=
  ((select doc containerSelector).take maxItems).filterMap (fun c =>
    if (extractItem c).isEmpty then none else some (extractItem c))

/-- `element.find(tag, class_=cls)`: the first descendant element with
that tag carrying that class. -/
def matchTagCls (tag cls : String) : Node → Bool
  | .text _ => false
  | .elem t cs _ => t == tag && cs.contains cls

/-- First matching descendant, `none` when absent. -/
def findFirst (tag cls : String) (n : Node) : Option Node :=
  (descendantsOf n).find? (matchTagCls tag cls)

/-- `element.get_text(strip=True)`: each descendant string stripped, all
concatenated. -/
def getTextStrip (n : Node) : String :=
  String.join ((descStrings n).map pyStrip)

/-- `', '.join(...)`. -/
def joinCommaSpace : List String → String
  | [] => ""
  | [s] => s
  | s :: rest => s ++ ", " ++ joinCommaSpace rest

/-- A record produced by the fixed-profile quote extractor. -/
structure QuoteRecord where
  quote : String
  author : String
  tags : String
deriving DecidableEq

/-- `soup.find_all('div', class_='quote')`. -/
def quoteBlocks (doc : Doc) : List Node :=
  (docElems doc).filter (matchTagCls "div" "quote")

/-- The stripped texts of the `a.tag` descendants of a quote block. -/
def quoteTags (q : Node) : List String :=
  ((descendantsOf q).filter (matchTagCls "a" "tag")).map getTextStrip

/-- The per-block body of `scrape_quotes`: the `try` block succeeds and
yields a record exactly when both `span.text` and `small.author` are
present; a missing one raises `AttributeError`, which the `except` turns
into skipping the block (src/scraper.py lines 97-116). -/
def extractQuote (q : Node) : Option QuoteRecord :=
  match findFirst "span" "text" q with
  | none => none
  | some t =>
    match findFirst "small" "author" q with
    | none => none
    | some a =>
        some ⟨getTextStrip t, getTextStrip a, joinCommaSpace (quoteTags q)⟩

/-- `scrape_quotes` (src/scraper.py lines 78-119) applied to an already
fetched page. -/
def scrape_quotes (doc : Doc) : List QuoteRecord :=
  (quoteBlocks doc).filterMap extractQuote

/-- Modelled from the spec: the candidate ordering the specification
describes for `detect` — "pattern candidates first in pattern-list order,
then frequency candidates in descending count order", truncated to 5.
Stated for comparison with `auto_detect_containers`. -/
def specOrderedDetect (doc : Doc) : List Candidate :=
  (commonPatterns.filterMap (patternCandidate doc) ++ freqCandidates doc).take 5

/-- Does the first element matching `sel` have more than 2 descendant
elements (the structural-richness test of the frequency heuristic)?
`false` when nothing matches. -/
def firstMatchRich (doc : Doc) (sel : String) : Bool :=
  match select doc sel with
  | [] => false
  | e :: _ => decide (2 < (descendantsOf e).length)

/-- The occurrence count of a class name in the document (0 if absent). -/
def countClass (doc : Doc) (cls : String) : Nat :=
  ((classCounter doc).lookup cls).getD 0

/-- Does a container have at least one qualifying text entry — an entry of
length above 2 among the first 10 non-empty stripped texts?  Exactly the
containers failing this produce no record. -/
def hasQualifyingText (c : Node) : Bool :=
  ((containerTexts c).take 10).any (fun t => decide (2 < t.length))

/-- The key-contiguity property claimed for extracted records: the keys
are exactly `field_1 .. field_k` for `k` the number of fields. -/
def contiguousKeys (r : List (String × String)) : Bool :=
  r.map Prod.fst == (List.range' 1 r.length).map (fun k => "field_" ++ natToString k)

/-! Concrete documents used by the counterexamples and witnesses below. -/

/-- A childless element. -/
def mkEl (tag : String) (cs : List String) : Node :=
  .elem tag cs .nil

/-- A childless classless span. -/
def spanEmpty : Node :=
  .elem "span" [] .nil

/-- A div with the given classes holding three childless spans, so that
it has more than 2 descendant elements. -/
def richDiv (cs : List String) : Node :=
  .elem "div" cs (.ofList [spanEmpty, spanEmpty, spanEmpty])

/-- A document where five structural patterns each match 3 times (all of
them childless, so none yields a frequency candidate) and the class `c`
occurs 3 times with a structurally rich first match.  The five pattern
candidates fill the whole truncated result, pushing the `.c` frequency
candidate out. -/
def exDocTrunc : Doc :=
  [mkEl "article" [], mkEl "article" [], mkEl "article" [],
   mkEl "div" ["item"], mkEl "div" ["item"], mkEl "div" ["item"],
   mkEl "div" ["card"], mkEl "div" ["card"], mkEl "div" ["card"],
   mkEl "div" ["product"], mkEl "div" ["product"], mkEl "div" ["product"],
   mkEl "div" ["post"], mkEl "div" ["post"], mkEl "div" ["post"],
   richDiv ["c"], mkEl "div" ["c"], mkEl "div" ["c"]]

/-- A document whose elements each carry the class token `d` twice, so
the class occurrence count (6) differs from the number of elements the
selector `.d` matches (3). -/
def exDocDup : Doc :=
  [richDiv ["d", "d"], mkEl "div" ["d", "d"], mkEl "div" ["d", "d"]]

/-- A document matching the patterns `article` and `div.item` 3 times
each, to exhibit the order in which pattern candidates come out. -/
def exDocOrder : Doc :=
  [mkEl "article" [], mkEl "article" [], mkEl "article" [],
   mkEl "div" ["item"], mkEl "div" ["item"], mkEl "div" ["item"]]

/-- A classless document with three `li` elements. -/
def exDocNoCls : Doc :=
  [mkEl "li" [], mkEl "li" [], mkEl "li" []]

/-- A classless single-paragraph document. -/
def wDocP : Doc :=
  [mkEl "p" []]

/-- A `div.item` container with the given children. -/
def itemDiv (chs : List Node) : Node :=
  .elem "div" ["item"] (.ofList chs)

/-- One container whose second text entry is short: its key index is
consumed but emitted for no field, leaving a gap `field_1, field_3`. -/
def exDocGap : Doc :=
  [itemDiv [.text "abc", .text "x", .text "def"]]

/-- Three `.item` containers: one with no text at all, one whose only
text is too short to qualify, one with a qualifying text. -/
def exDocSkip : Doc :=
  [itemDiv [], itemDiv [.text "x"], itemDiv [.text "abcdef"]]

/-- Three `.item` containers of which exactly one has no qualifying text
and the other two qualify. -/
def wDocSkip : Doc :=
  [itemDiv [], itemDiv [.text "abcdef"], itemDiv [.text "hello there"]]

/-- Three `.listing` divs, the first structurally rich: the class both
clears the frequency heuristic and is the pattern `.listing`. -/
def exDocListing : Doc :=
  [richDiv ["listing"], mkEl "div" ["listing"], mkEl "div" ["listing"]]

/-- Three `div.c` elements, the first structurally rich. -/
def wDocFreq : Doc :=
  [richDiv ["c"], mkEl "div" ["c"], mkEl "div" ["c"]]

/-- An `a.tag` element holding one text node. -/
def aTag (s : String) : Node :=
  .elem "a" ["tag"] (.ofList [.text s])

/-- A well-formed quote block with `span.text`, `small.author` and a list
of `a.tag` children. -/
def quoteBlock (txt author : String) (tags : List String) : Node :=
  .elem "div" ["quote"] (.ofList
    ([Node.elem "span" ["text"] (.ofList [.text txt]),
      Node.elem "small" ["author"] (.ofList [.text author])] ++ tags.map aTag))

/-- A quote block missing its `small.author` sub-element. -/
def brokenQuote : Node :=
  .elem "div" ["quote"] (.ofList [Node.elem "span" ["text"] (.ofList [.text "orphan"])])

/-- A quotes page with two well-formed quote blocks and one broken one. -/
def wDocQuotes : Doc :=
  [quoteBlock "Hello world" "Alice" ["one", "two"], brokenQuote,
   quoteBlock "Second quote" "Bob" []]

/-! ### Helper lemmas -/

/-- A fold that conses each `some`-result onto the accumulator produces
the reversed `filterMap` in front of the starting accumulator. -/
theorem foldl_insert_front {α β : Type} (f : α → Option β) :
    ∀ (ps : List α) (acc : List β),
      ps.foldl (insertFrontStep f) acc = (ps.filterMap f).reverse ++ acc := by
  intro ps
  induction ps with
  | nil => intro acc; rfl
  | cons p ps ih =>
    intro acc
    cases h : f p with
    | none => simp [List.foldl_cons, List.filterMap_cons, insertFrontStep, h, ih]
    | some c =>
      simp [List.foldl_cons, List.filterMap_cons, insertFrontStep, h, ih,
        List.append_assoc]

/-- The untruncated candidate list is the reversed pattern candidates in
front of the frequency candidates. -/
theorem allCandidates_eq (doc : Doc) :
    allCandidates doc =
      (commonPatterns.filterMap (patternCandidate doc)).reverse ++ freqCandidates doc := by
  unfold allCandidates
  exact foldl_insert_front (patternCandidate doc) commonPatterns (freqCandidates doc)

/-- The length of a `filterMap` counts the inputs mapped to `some`. -/
theorem length_filterMap_eq_countP {α β : Type} (f : α → Option β) (l : List α) :
    (l.filterMap f).length = l.countP (fun a => (f a).isSome) := by
  induction l with
  | nil => rfl
  | cons a l ih =>
    cases h : f a with
    | none => simp [List.filterMap_cons, List.countP_cons, h, ih]
    | some b => simp [List.filterMap_cons, List.countP_cons, h, ih]

/-- Mapped `range'` segments of the same start nest as sublists. -/
theorem map_range'_sublist {β : Type} (f : Nat → β) :
    ∀ (n m s : Nat), m ≤ n →
      List.Sublist ((List.range' s m).map f) ((List.range' s n).map f) := by
  intro n
  induction n with
  | zero =>
    intro m s h
    rw [Nat.le_zero.mp h]
  | succ n ih =>
    intro m s h
    cases m with
    | zero => simp
    | succ m =>
      rw [List.range'_succ, List.range'_succ]
      simp only [List.map_cons]
      exact List.Sublist.cons₂ _ (ih m (s + 1) (Nat.le_of_succ_le_succ h))

/-- The keys emitted by the field loop, as a sublist of the numbered keys
starting at index `i + 1`: a skipped short entry still consumes its
index. -/
theorem extractFields_keys_sublist :
    ∀ (ts : List String) (i : Nat),
      List.Sublist ((extractFields i ts).map Prod.fst)
        ((List.range' (i + 1) ts.length).map (fun k => "field_" ++ natToString k)) := by
  intro ts
  induction ts with
  | nil => intro i; simp [extractFields]
  | cons t ts ih =>
    intro i
    rw [List.length_cons, List.range'_succ]
    by_cases h : 2 < t.length
    · simp only [extractFields, if_pos h, List.map_cons]
      exact List.Sublist.cons₂ _ (ih (i + 1))
    · simp only [extractFields, if_neg h, List.map_cons]
      exact List.Sublist.cons _ (ih (i + 1))

/-- Every emitted field value is one of the input texts and has length
above 2. -/
theorem extractFields_mem :
    ∀ (ts : List String) (i : Nat) (kv : String × String),
      kv ∈ extractFields i ts → kv.2 ∈ ts ∧ 2 < kv.2.length := by
  intro ts
  induction ts with
  | nil => intro i kv h; simp [extractFields] at h
  | cons t ts ih =>
    intro i kv h
    by_cases hl : 2 < t.length
    · simp only [extractFields, if_pos hl] at h
      rcases List.mem_cons.mp h with h1 | h1
      · rw [h1]
        exact ⟨List.mem_cons_self t ts, hl⟩
      · obtain ⟨hm, hT⟩ := ih (i + 1) kv h1
        exact ⟨List.mem_cons_of_mem t hm, hT⟩
    · simp only [extractFields, if_neg hl] at h
      obtain ⟨hm, hT⟩ := ih (i + 1) kv h
      exact ⟨List.mem_cons_of_mem t hm, hT⟩

/-- The field loop emits nothing exactly when no input text qualifies. -/
theorem extractFields_isEmpty :
    ∀ (ts : List String) (i : Nat),
      (extractFields i ts).isEmpty = !(ts.any (fun t => decide (2 < t.length))) := by
  intro ts
  induction ts with
  | nil => intro i; rfl
  | cons t ts ih =>
    intro i
    by_cases hl : 2 < t.length
    · simp [extractFields, if_pos hl, hl]
    · simp [extractFields, if_neg hl, hl, ih (i + 1)]

/-- A record is empty exactly when the container has no qualifying text. -/
theorem extractItem_isEmpty_eq (c : Node) :
    (extractItem c).isEmpty = !hasQualifyingText c :=
  extractFields_isEmpty ((containerTexts c).take 10) 0

/-- `dropWhile` is idempotent. -/
theorem dropWhile_idem {α : Type} (p : α → Bool) (l : List α) :
    (l.dropWhile p).dropWhile p = l.dropWhile p := by
  induction l with
  | nil => rfl
  | cons a l ih =>
    by_cases h : p a
    · simp [List.dropWhile_cons, h, ih]
    · simp [List.dropWhile_cons, h]

/-- The head surviving a `dropWhile` does not satisfy the predicate. -/
theorem head_dropWhile_false {α : Type} (p : α → Bool) :
    ∀ (l : List α) (a : α), (l.dropWhile p).head? = some a → p a = false := by
  intro l
  induction l with
  | nil => intro a h; simp at h
  | cons b l ih =>
    intro a h
    by_cases hb : p b
    · rw [List.dropWhile_cons, if_pos hb] at h
      exact ih a h
    · rw [List.dropWhile_cons, if_neg hb] at h
      rw [List.head?_cons] at h
      injection h with h
      rw [← h]
      simpa using hb

/-- A list whose head fails the predicate is unchanged by `dropWhile`. -/
theorem dropWhile_eq_self_of_head {α : Type} (p : α → Bool) (l : List α)
    (h : ∀ a, l.head? = some a → p a = false) : l.dropWhile p = l := by
  cases l with
  | nil => rfl
  | cons a l =>
    have ha := h a rfl
    simp [List.dropWhile_cons, ha]

/-- Two-sided stripping is idempotent. -/
theorem stripGen_idem {α : Type} (p : α → Bool) (l : List α) :
    stripGen p (stripGen p l) = stripGen p l := by
  have hpre : List.IsPrefix (stripGen p l) (l.dropWhile p) := by
    have hsuf := List.dropWhile_suffix (l := (l.dropWhile p).reverse) p
    have h2 := List.reverse_prefix.mpr hsuf
    rwa [List.reverse_reverse] at h2
  have h1 : (stripGen p l).dropWhile p = stripGen p l := by
    apply dropWhile_eq_self_of_head
    intro a ha
    obtain ⟨t, ht⟩ := hpre
    have hhead : (l.dropWhile p).head? = some a := by
      rw [← ht]
      cases hz : stripGen p l with
      | nil => rw [hz] at ha; simp at ha
      | cons z zt =>
        rw [hz] at ha
        rw [List.head?_cons] at ha
        injection ha with ha
        simp [ha]
    exact head_dropWhile_false p l a hhead
  show (((stripGen p l).dropWhile p).reverse.dropWhile p).reverse = stripGen p l
  rw [h1]
  have h2 : (stripGen p l).reverse = (l.dropWhile p).reverse.dropWhile p := by
    simp [stripGen, List.reverse_reverse]
  rw [h2, dropWhile_idem]
  simp [stripGen, List.reverse_reverse]

/-- Python's `strip` is idempotent. -/
theorem pyStrip_idem (s : String) : pyStrip (pyStrip s) = pyStrip s := by
  have h : stripChars (stripChars s.data) = stripChars s.data :=
    stripGen_idem pyWhitespace s.data
  simp only [pyStrip]
  rw [h]

/-- The texts the extraction loop works on are already stripped. -/
theorem mem_containerTexts_strip {c : Node} {v : String}
    (h : v ∈ containerTexts c) : pyStrip v = v := by
  unfold containerTexts at h
  have h1 := (List.mem_filter.mp h).1
  obtain ⟨t0, _, ht0⟩ := List.mem_map.mp h1
  rw [← ht0]
  exact pyStrip_idem t0

/-- Records returned by `extract` come from a selected, capped container
whose record is non-empty. -/
theorem mem_extract {doc : Doc} {sel : String} {n : Nat} {r : List (String × String)}
    (h : r ∈ extract doc sel n) :
    ∃ c, c ∈ (select doc sel).take n ∧ extractItem c = r ∧ r ≠ [] := by
  unfold extract at h
  obtain ⟨c, hc, hsome⟩ := List.mem_filterMap.mp h
  by_cases he : (extractItem c).isEmpty
  · rw [if_pos he] at hsome
    exact absurd hsome (by simp)
  · rw [if_neg he] at hsome
    have hr : extractItem c = r := by simpa using hsome
    refine ⟨c, hc, hr, ?_⟩
    rw [← hr]
    simpa using he

/-- A pattern-loop candidate is tagged `PatternHeuristic`. -/
theorem patternCandidate_source {doc : Doc} {pat : String} {c : Candidate}
    (h : patternCandidate doc pat = some c) : c.source = Source.PatternHeuristic := by
  unfold patternCandidate at h
  split at h
  · simp at h
  · split at h
    · have h2 := Option.some.inj h
      rw [← h2]
    · simp at h

/-- A frequency-loop candidate is tagged `FrequencyHeuristic`. -/
theorem freqCandidate_source {doc : Doc} {p : String × Nat} {c : Candidate}
    (h : freqCandidate doc p = some c) : c.source = Source.FrequencyHeuristic := by
  unfold freqCandidate at h
  split at h
  · split at h
    · simp at h
    · split at h
      · have h2 := Option.some.inj h
        rw [← h2]
      · simp at h
  · simp at h

/-- A pattern with fewer than 3 matches yields no candidate. -/
theorem patternCandidate_eq_none_of_short {doc : Doc} {pat : String}
    (h : (select doc pat).length < 3) : patternCandidate doc pat = none := by
  unfold patternCandidate
  cases hsel : select doc pat with
  | nil => rfl
  | cons e rest =>
    rw [hsel] at h
    rw [List.length_cons] at h
    have h3 : ¬ 3 ≤ rest.length + 1 := by omega
    simp [h3]

/-- A class-bearing selector matches nothing in a classless element. -/
theorem matchesSel_false_of_noClasses (sel : String)
    (hdot : sel.data.dropWhile (fun c => c != '.') ≠ []) (n : Node)
    (hcs : nodeClasses n = []) : matchesSel sel n = false := by
  cases n with
  | text s => rfl
  | elem t cs ch =>
    have hcs2 : cs = [] := hcs
    subst hcs2
    cases hd : sel.data.dropWhile (fun c => c != '.') with
    | nil => exact absurd hd hdot
    | cons c rest =>
      unfold matchesSel
      rw [hd]
      simp [List.contains]

/-- A document whose elements carry no classes has an empty counter. -/
theorem classCounter_eq_nil {doc : Doc}
    (h : ∀ n ∈ docElems doc, nodeClasses n = []) : classCounter doc = [] := by
  unfold classCounter
  have H : ∀ (l : List Node) (acc : List (String × Nat)),
      (∀ n ∈ l, nodeClasses n = []) →
      l.foldl (fun acc n => (nodeClasses n).foldl (fun a c => bump c a) acc) acc = acc := by
    intro l
    induction l with
    | nil => intro acc _; rfl
    | cons n l ih =>
      intro acc hl
      rw [List.foldl_cons, hl n (List.mem_cons_self n l)]
      exact ih acc (fun m hm => hl m (List.mem_cons_of_mem n hm))
  exact H _ [] h

/-- `extractQuote` succeeds exactly when both required sub-elements are
present. -/
theorem extractQuote_isSome (q : Node) :
    (extractQuote q).isSome =
      ((findFirst "span" "text" q).isSome && (findFirst "small" "author" q).isSome) := by
  unfold extractQuote
  cases findFirst "span" "text" q <;> cases findFirst "small" "author" q <;> rfl

/-! ### Claim theorems -/

/-- C1, counterexample.  In `exDocTrunc` the class `c` occurs 3 times and
its first match has more than 2 descendant elements, yet `detect` returns
no candidate with selector `.c` at all: five pattern candidates fill the
truncated result.  In `exDocDup` the premises hold for class `d` but the
only `.d` candidate carries the class occurrence count 6, not the number
3 of elements the selector matches. -/
theorem C1_counterexample :
    (3 ≤ countClass exDocTrunc "c" ∧
      firstMatchRich exDocTrunc ".c" = true ∧
      (select exDocTrunc ".c").length = 3 ∧
      ∀ c ∈ auto_detect_containers exDocTrunc, c.selector ≠ ".c") ∧
    (3 ≤ countClass exDocDup "d" ∧
      firstMatchRich exDocDup ".d" = true ∧
      (select exDocDup ".d").length = 3 ∧
      ∀ c ∈ auto_detect_containers exDocDup,
        c.selector = ".d" → c.count = 6 ∧ c.count ≠ (select exDocDup ".d").length) := by
  decide

/-- C1, amended.  Every class among the 20 most frequent whose occurrence
count is at least 3 and whose first match has more than 2 descendant
elements contributes a `FrequencyHeuristic` candidate with selector
`.` + class to the candidate list built before truncation to 5, with
`count` equal to the class's occurrence count. -/
theorem C1_freq_candidate_in_untruncated (doc : Doc) (cls : String) (cnt : Nat)
    (hmem : (cls, cnt) ∈ mostCommon 20 (classCounter doc))
    (hcnt : 3 ≤ cnt)
    (hrich : firstMatchRich doc ("." ++ cls) = true) :
    ∃ c ∈ allCandidates doc,
      c.selector = "." ++ cls ∧ c.count = cnt ∧ c.source = Source.FrequencyHeuristic := by
  unfold firstMatchRich at hrich
  cases hsel : select doc ("." ++ cls) with
  | nil => rw [hsel] at hrich; simp at hrich
  | cons e rest =>
    rw [hsel] at hrich
    have hlen : 2 < (descendantsOf e).length := by simpa using hrich
    have hfc : freqCandidate doc (cls, cnt) =
        some ⟨"." ++ cls, cnt, strTake (render e) 200, Source.FrequencyHeuristic⟩ := by
      simp only [freqCandidate]
      rw [hsel]
      simp [hcnt, hlen]
    have hmemf :
        (⟨"." ++ cls, cnt, strTake (render e) 200, Source.FrequencyHeuristic⟩ :
          Candidate) ∈ freqCandidates doc :=
      List.mem_filterMap.mpr ⟨(cls, cnt), hmem, hfc⟩
    refine ⟨⟨"." ++ cls, cnt, strTake (render e) 200, Source.FrequencyHeuristic⟩,
      ?_, rfl, rfl, rfl⟩
    rw [allCandidates_eq]
    exact List.mem_append_right _ hmemf

/-- C1, witness: in `wDocFreq` the class `c` satisfies all the premises
and the untruncated candidate list indeed holds its frequency candidate. -/
theorem C1_witness :
    (("c", 3) ∈ mostCommon 20 (classCounter wDocFreq)) ∧ 3 ≤ 3 ∧
    firstMatchRich wDocFreq ".c" = true ∧
    ∃ c ∈ allCandidates wDocFreq,
      c.selector = "." ++ "c" ∧ c.count = 3 ∧ c.source = Source.FrequencyHeuristic :=
  ⟨by decide, by decide, by decide,
    C1_freq_candidate_in_untruncated wDocFreq "c" 3 (by decide) (by decide) (by decide)⟩

/-- C2, counterexample.  On `exDocOrder` the code returns the pattern
candidates in reverse pattern-list order, not in pattern-list order as
the claim states. -/
theorem C2_counterexample :
    (auto_detect_containers exDocOrder).map (fun c => c.selector) =
      ["div.item", "article"] ∧
    (specOrderedDetect exDocOrder).map (fun c => c.selector) =
      ["article", "div.item"] ∧
    auto_detect_containers exDocOrder ≠ specOrderedDetect exDocOrder := by
  decide

/-- C2, amended.  `detect` returns the first 5 entries of the pattern
candidates in REVERSE pattern-list order followed by the frequency
candidates in descending count order; its length is always at most 5. -/
theorem C2_detect_order (doc : Doc) :
    auto_detect_containers doc =
      ((commonPatterns.filterMap (patternCandidate doc)).reverse ++
        freqCandidates doc).take 5 ∧
    (auto_detect_containers doc).length ≤ 5 := by
  constructor
  · unfold auto_detect_containers
    rw [allCandidates_eq]
  · unfold auto_detect_containers
    exact List.length_take_le _ _

/-- C3, counterexample.  In `exDocGap` the short middle entry consumes
key index 2, so the single record has keys `field_1, field_3` — a gap. -/
theorem C3_counterexample :
    (extract exDocGap ".item" 10).map (fun r => r.map Prod.fst) =
      [["field_1", "field_3"]] ∧
    ¬ (∀ r ∈ extract exDocGap ".item" 10, contiguousKeys r = true) := by
  decide

/-- C3, amended.  The keys of every extracted record form a subsequence
of `field_1 .. field_10` in increasing order, but they need not be
contiguous: an entry of length at most 2 among the first 10 non-empty
stripped texts consumes its key index without emitting a field. -/
theorem C3_keys_sublist (doc : Doc) (sel : String) (n : Nat)
    (r : List (String × String)) (h : r ∈ extract doc sel n) :
    List.Sublist (r.map Prod.fst)
      ((List.range' 1 10).map (fun k => "field_" ++ natToString k)) := by
  obtain ⟨c, hc, hr, hne⟩ := mem_extract h
  rw [← hr]
  have hsub := extractFields_keys_sublist ((containerTexts c).take 10) 0
  exact hsub.trans
    (map_range'_sublist _ 10 ((containerTexts c).take 10).length 1
      (List.length_take_le _ _))

/-- C3, witness: the gapped record of `exDocGap` is a subsequence of the
numbered keys. -/
theorem C3_witness :
    ([("field_1", "abc"), ("field_3", "def")] ∈ extract exDocGap ".item" 10) ∧
    List.Sublist ([("field_1", "abc"), ("field_3", "def")].map Prod.fst)
      ((List.range' 1 10).map (fun k => "field_" ++ natToString k)) :=
  ⟨by decide, C3_keys_sublist exDocGap ".item" 10 _ (by decide)⟩

/-- C4, counterexample.  `exDocNoCls` carries no classes at all, yet
`detect` returns the `li` pattern candidate, because the patterns
`article` and `li` select by tag alone. -/
theorem C4_counterexample :
    (∀ n ∈ docElems exDocNoCls, nodeClasses n = []) ∧
    auto_detect_containers exDocNoCls ≠ [] := by
  decide

/-- C4, amended.  On a document with zero class-carrying elements AND
fewer than 3 `article` elements AND fewer than 3 `li` elements, `detect`
returns the empty sequence (all other patterns require a class). -/
theorem C4_detect_empty (doc : Doc)
    (hnc : ∀ n ∈ docElems doc, nodeClasses n = [])
    (ha : (select doc "article").length < 3)
    (hl : (select doc "li").length < 3) :
    auto_detect_containers doc = [] := by
  have hfreq : freqCandidates doc = [] := by
    unfold freqCandidates
    rw [classCounter_eq_nil hnc]
    rfl
  have hclsSel : ∀ pat : String, pat.data.dropWhile (fun c => c != '.') ≠ [] →
      patternCandidate doc pat = none := by
    intro pat hdot
    apply patternCandidate_eq_none_of_short
    have hnil : select doc pat = [] := by
      unfold select
      rw [List.filter_eq_nil_iff]
      intro n hn
      rw [matchesSel_false_of_noClasses pat hdot n (hnc n hn)]
      simp
    rw [hnil]
    simp
  have h1 : patternCandidate doc "article" = none := patternCandidate_eq_none_of_short ha
  have h2 : patternCandidate doc "div.item" = none := hclsSel _ (by decide)
  have h3 : patternCandidate doc "div.card" = none := hclsSel _ (by decide)
  have h4 : patternCandidate doc "div.product" = none := hclsSel _ (by decide)
  have h5 : patternCandidate doc "div.post" = none := hclsSel _ (by decide)
  have h6 : patternCandidate doc "li" = none := patternCandidate_eq_none_of_short hl
  have h7 : patternCandidate doc ".listing" = none := hclsSel _ (by decide)
  have h8 : patternCandidate doc ".entry" = none := hclsSel _ (by decide)
  unfold auto_detect_containers allCandidates commonPatterns
  rw [hfreq]
  simp [List.foldl_cons, insertFrontStep, h1, h2, h3, h4, h5, h6, h7, h8]

/-- C4, witness: a classless one-paragraph document yields no candidate. -/
theorem C4_witness :
    (∀ n ∈ docElems wDocP, nodeClasses n = []) ∧
    (select wDocP "article").length < 3 ∧
    (select wDocP "li").length < 3 ∧
    auto_detect_containers wDocP = [] :=
  ⟨by decide, by decide, by decide,
    C4_detect_empty wDocP (by decide) (by decide) (by decide)⟩

/-- Counting a Boolean predicate and its negation exhausts the list. -/
theorem countP_bool_split {α : Type} (p : α → Bool) (l : List α) :
    l.countP p + l.countP (fun a => !p a) = l.length := by
  induction l with
  | nil => rfl
  | cons a l ih =>
    cases h : p a <;> simp [List.countP_cons, h] <;> omega

/-- C5.  Every record `extract` returns has at most 10 keys, and every
stored value still has length above 2 after stripping (values are stored
already stripped, and stripping is idempotent). -/
theorem C5_extract_bounds (doc : Doc) (sel : String) (n : Nat)
    (r : List (String × String)) (h : r ∈ extract doc sel n) :
    r.length ≤ 10 ∧ ∀ kv ∈ r, 2 < (pyStrip kv.2).length := by
  obtain ⟨c, hc, hr, hne⟩ := mem_extract h
  constructor
  · rw [← hr]
    have h1 := (extractFields_keys_sublist ((containerTexts c).take 10) 0).length_le
    rw [List.length_map, List.length_map, List.length_range'] at h1
    exact h1.trans (List.length_take_le _ _)
  · intro kv hkv
    rw [← hr] at hkv
    obtain ⟨hmem, hlen⟩ := extractFields_mem ((containerTexts c).take 10) 0 kv hkv
    have hmem2 : kv.2 ∈ containerTexts c := List.mem_of_mem_take hmem
    rw [mem_containerTexts_strip hmem2]
    exact hlen

/-- C5, witness: the single record extracted from `exDocSkip`. -/
theorem C5_witness :
    ([("field_1", "abcdef")] ∈ extract exDocSkip ".item" 10) ∧
    ([("field_1", "abcdef")].length ≤ 10 ∧
      ∀ kv ∈ [("field_1", "abcdef")], 2 < (pyStrip kv.2).length) :=
  ⟨by decide, C5_extract_bounds exDocSkip ".item" 10 _ (by decide)⟩

/-- C6.  The detection result splits into a block of `PatternHeuristic`
candidates followed by a block of `FrequencyHeuristic` candidates, so
every pattern candidate precedes every frequency candidate. -/
theorem C6_pattern_before_frequency (doc : Doc) :
    ∃ ps fs, auto_detect_containers doc = ps ++ fs ∧
      (∀ c ∈ ps, c.source = Source.PatternHeuristic) ∧
      (∀ c ∈ fs, c.source = Source.FrequencyHeuristic) := by
  refine ⟨((commonPatterns.filterMap (patternCandidate doc)).reverse).take 5,
    (freqCandidates doc).take
      (5 - ((commonPatterns.filterMap (patternCandidate doc)).reverse).length),
    ?_, ?_, ?_⟩
  · unfold auto_detect_containers
    rw [allCandidates_eq, List.take_append_eq_append_take]
  · intro c hc
    have hc2 := List.mem_reverse.mp (List.mem_of_mem_take hc)
    obtain ⟨p, _, hp⟩ := List.mem_filterMap.mp hc2
    exact patternCandidate_source hp
  · intro c hc
    obtain ⟨p, _, hp⟩ := List.mem_filterMap.mp (List.mem_of_mem_take hc)
    exact freqCandidate_source hp

/-- C7, counterexample.  In `exDocSkip` exactly one matched container has
no text content, yet `extract` returns 1 record, not 3 - 1 = 2: a second
container has text, but none of it qualifies, so it is skipped too. -/
theorem C7_counterexample :
    ((select exDocSkip ".item").take 10).length = 3 ∧
    ((select exDocSkip ".item").take 10).countP
      (fun c => (descStrings c).isEmpty) = 1 ∧
    (extract exDocSkip ".item" 10).length = 1 ∧
    (extract exDocSkip ".item" 10).length ≠
      ((select exDocSkip ".item").take 10).length - 1 := by
  decide

/-- C7, amended.  A container with no qualifying text entry (none of
length above 2 among its first 10 non-empty stripped texts) produces no
record; when exactly one matched container lacks a qualifying entry,
`extract` returns exactly one fewer record than the number of matched
(capped) containers. -/
theorem C7_empty_skipped (doc : Doc) (sel : String) (n : Nat) :
    (∀ c : Node, hasQualifyingText c = false → extractItem c = []) ∧
    (((select doc sel).take n).countP (fun c => !hasQualifyingText c) = 1 →
      (extract doc sel n).length = ((select doc sel).take n).length - 1) := by
  constructor
  · intro c hc
    have h1 := extractItem_isEmpty_eq c
    rw [hc] at h1
    cases hx : extractItem c with
    | nil => rfl
    | cons f fs =>
      rw [hx] at h1
      simp at h1
  · intro h1
    have hlen : (extract doc sel n).length =
        ((select doc sel).take n).countP
          (fun c => (if (extractItem c).isEmpty then none
                     else some (extractItem c)).isSome) := by
      unfold extract
      exact length_filterMap_eq_countP _ _
    have hiff : ∀ c : Node,
        ((if (extractItem c).isEmpty then (none : Option (List (String × String)))
          else some (extractItem c)).isSome) = hasQualifyingText c := by
      intro c
      have h2 := extractItem_isEmpty_eq c
      cases hq : hasQualifyingText c
      · rw [hq] at h2
        simp at h2
        simp [h2]
      · rw [hq] at h2
        simp at h2
        simp [h2]
    have hcong : ((select doc sel).take n).countP
          (fun c => (if (extractItem c).isEmpty then none
                     else some (extractItem c)).isSome) =
        ((select doc sel).take n).countP (fun c => hasQualifyingText c) :=
      List.countP_congr (fun c _ => by rw [hiff c])
    have hsplit := countP_bool_split (fun c => hasQualifyingText c)
      ((select doc sel).take n)
    rw [hlen, hcong]
    omega

/-- C7, witness: in `wDocSkip` exactly one container lacks qualifying
text, and the record count is one below the container count. -/
theorem C7_witness :
    (((select wDocSkip ".item").take 10).countP
        (fun c => !hasQualifyingText c) = 1) ∧
    extractItem (itemDiv []) = [] ∧
    (extract wDocSkip ".item" 10).length =
      ((select wDocSkip ".item").take 10).length - 1 :=
  ⟨by decide, (C7_empty_skipped wDocSkip ".item" 10).1 (itemDiv []) (by decide),
    (C7_empty_skipped wDocSkip ".item" 10).2 (by decide)⟩

/-- C8.  The whole detection body runs inside `try/except`: when the
fallible fetch-and-parse front end fails with any error, detection
returns the empty sequence instead of propagating; the remaining steps
(class counting, selector evaluation) are total functions of the parsed
document in this embedding, so no other failure can escape. -/
theorem C8_error_yields_empty (e : String) :
    auto_detect_from_fetch (Except.error e) = [] := rfl

/-- C9.  The fixed-profile quote extractor yields exactly one record per
quote block carrying both `span.text` and `small.author` (blocks missing
one are skipped, the rest still extracted), and each such block's record
holds the stripped quote text, the stripped author text, and the tag
texts joined by a comma and a space. -/
theorem C9_scrape_quotes (doc : Doc) :
    (scrape_quotes doc).length =
      (quoteBlocks doc).countP
        (fun q => ((findFirst "span" "text" q).isSome &&
                   (findFirst "small" "author" q).isSome)) ∧
    ∀ q ∈ quoteBlocks doc, ∀ t a,
      findFirst "span" "text" q = some t →
      findFirst "small" "author" q = some a →
      (⟨getTextStrip t, getTextStrip a, joinCommaSpace (quoteTags q)⟩ : QuoteRecord) ∈
        scrape_quotes doc := by
  constructor
  · unfold scrape_quotes
    rw [length_filterMap_eq_countP]
    exact List.countP_congr (fun q _ => by rw [extractQuote_isSome q])
  · intro q hq t a ht ha
    refine List.mem_filterMap.mpr ⟨q, hq, ?_⟩
    unfold extractQuote
    rw [ht, ha]

/-- C9, witness: on `wDocQuotes` the block count is 3, two carry both
sub-elements, the record of the first block is present, and the broken
block is skipped (record count 2). -/
theorem C9_witness :
    (quoteBlocks wDocQuotes).length = 3 ∧
    (scrape_quotes wDocQuotes).length = 2 ∧
    (⟨"Hello world", "Alice", "one, two"⟩ : QuoteRecord) ∈ scrape_quotes wDocQuotes :=
  ⟨by decide, by decide,
    (C9_scrape_quotes wDocQuotes).2
      (quoteBlock "Hello world" "Alice" ["one", "two"]) (by decide)
      (Node.elem "span" ["text"] (NodeList.ofList [Node.text "Hello world"]))
      (Node.elem "small" ["author"] (NodeList.ofList [Node.text "Alice"]))
      rfl rfl⟩

/-- C10.  `detect` does not deduplicate across heuristics: on
`exDocListing` it returns the selector `.listing` twice, first as a
pattern candidate, then as a frequency candidate. -/
theorem C10_duplicate_selector :
    (auto_detect_containers exDocListing).map (fun c => (c.selector, c.source)) =
      [(".listing", Source.PatternHeuristic), (".listing", Source.FrequencyHeuristic)] := by
  decide

end Webscraper
